import Mathlib

/-!
A shallow embedding of the ratchet WebSocket session engine
(`src/ratchet/src/ws.rs`, `WebSocketInner`): its data model and the three
operations `read`, `write` and `send_fragmented`, together with theorems
checking the specified behaviour.

The frame codec (`FramedIo`, the `framed` module) and the handshake are
external collaborators whose code is not under `src/`; following the spec
(§6) the codec is modelled as
  - a script of decoded read results (`List (Except ReadError Item)`)
    consumed by `read`, and
  - a write half consisting of an oracle scripting the result of each
    successive codec write plus the ordered trace of writes that were
    actually transmitted (`FramedState`).
-/

namespace Ratchet

/-- Payload bytes (an octet is kept abstract as a `Nat`; only equality of
byte sequences matters to the engine). -/
abbrev Bytes := List Nat

/-- `CONTROL_MAX_SIZE` from `ws.rs`. -/
def CONTROL_MAX_SIZE : Nat := 125

/-- `CONTROL_DATA_MISMATCH` from `ws.rs`. -/
def CONTROL_DATA_MISMATCH : String := "Unexpected control frame data"

/-- Modelled from the spec: `CONTROL_FRAME_LEN`, the size-limit error text
imported by `ws.rs` from the frame codec module, which is not under
`src/`; the spec (§4.3) only says the oversized-ping call "fails
`Protocol` with a size-limit error", so the exact text is a placeholder
and nothing here depends on it. -/
def CONTROL_FRAME_LEN : String := "control frame payload longer than 125 bytes"

/-- `protocol::DataCode` as used by `ws.rs`. -/
inductive DataCode
  | continuation
  | text
  | binary
deriving DecidableEq, Repr

/-- `protocol::ControlCode` as used by `ws.rs`. -/
inductive ControlCode
  | close
  | ping
  | pong
deriving DecidableEq, Repr

/-- `protocol::OpCode`. -/
inductive OpCode
  | dataCode (c : DataCode)
  | controlCode (c : ControlCode)
deriving DecidableEq, Repr

/-- `protocol::CloseCode`; only `Normal` and `Protocol` are named in
`ws.rs`, the remaining wire codes are collapsed into `other`. -/
inductive CloseCode
  | normal
  | protocol
  | other (n : Nat)
deriving DecidableEq, Repr

/-- `protocol::CloseReason`: a code plus an optional description (spec §3). -/
structure CloseReason where
  code : CloseCode
  description : Option String
deriving DecidableEq, Repr

/-- `protocol::Message`, the result of a `read` (spec §3). -/
inductive Message
  | text
  | binary
  | ping
  | pong
  | close (reason : CloseReason)
deriving DecidableEq, Repr

/-- `protocol::MessageType` (fragmented write). -/
inductive MessageType
  | text
  | binary
deriving DecidableEq, Repr

/-- `protocol::PayloadType` (single-frame write). -/
inductive PayloadType
  | text
  | binary
  | ping
deriving DecidableEq, Repr

/-- `ratchet::Error` as the engine distinguishes its values:
`closeError` is `Error::with_cause(ErrorKind::Close, CloseError::Closed)`,
`protocolError` is `ErrorKind::Protocol` with its message, and `transport`
stands for the opaque transport/IO failures the codec can surface
(told apart by an arbitrary tag). -/
inductive Error
  | closeError
  | protocolError (msg : String)
  | transport (id : Nat)
deriving DecidableEq, Repr

/-- `framed::Item`, the decoded items produced by the frame codec.  The
codec is not under `src/`; the payload-carrying shape is modelled from
its use in `ws.rs` and the spec (§3). -/
inductive Item
  | binary
  | text
  | ping (payload : Bytes)
  | pong (payload : Bytes)
  | close (reason : CloseReason) (payload : Bytes)
deriving DecidableEq, Repr

/-- `framed::ReadError` exactly as destructured in `ws.rs`: the failure
plus an optional recommended close reason (spec §6). -/
structure ReadError where
  close_with : Option CloseReason
  error : Error
deriving DecidableEq, Repr

/-- Result of an engine operation: normal return, error return, or a Rust
panic (the latter is reachable in `write`'s ping-tracking step and in
`chunks_mut(0)`). -/
inductive Outcome (α : Type)
  | ok (a : α)
  | error (e : Error)
  | panic (msg : String)
deriving DecidableEq, Repr

/-- One outbound unit handed to the codec's write half: either a raw
frame (`FramedIo::write`: opcode, FIN flag, payload) or an encoded close
frame (`FramedIo::write_close`; the reason-to-payload encoding lives in
the codec, outside `src/`, so the reason is recorded as such). -/
inductive WsWrite
  | frame (op : OpCode) (fin : Bool) (payload : Bytes)
  | closeFrame (reason : CloseReason)
deriving DecidableEq, Repr

/-- The engine's view of the codec's write half: `oracle` scripts the
result of each successive codec write (`none` = success, `some e` =
failure with `e`; an exhausted oracle means every further write
succeeds), and `trace` is the ordered list of successfully transmitted
writes. -/
structure FramedState where
  oracle : List (Option Error)
  trace : List WsWrite
deriving DecidableEq, Repr

/-- `FramedIo::write`: consult the oracle; a successful write appends the
frame to the trace, a failing one transmits nothing. -/
def framedWrite (fs : FramedState) (op : OpCode) (fin : Bool) (payload : Bytes) :
    FramedState × Option Error :=
  match fs.oracle with
  | [] => (⟨[], fs.trace ++ [WsWrite.frame op fin payload]⟩, none)
  | none :: rest => (⟨rest, fs.trace ++ [WsWrite.frame op fin payload]⟩, none)
  | some e :: rest => (⟨rest, fs.trace⟩, some e)

/-- `FramedIo::write_close`. -/
def framedWriteClose (fs : FramedState) (reason : CloseReason) :
    FramedState × Option Error :=
  match fs.oracle with
  | [] => (⟨[], fs.trace ++ [WsWrite.closeFrame reason]⟩, none)
  | none :: rest => (⟨rest, fs.trace ++ [WsWrite.closeFrame reason]⟩, none)
  | some e :: rest => (⟨rest, fs.trace⟩, some e)

/-- The engine state of `WebSocketInner` (`ws.rs`).  The codec handle
(`framed`) is the separate `FramedState` threaded through the operations;
the `_extension` field is opaque and never used by `ws.rs`, so it is
omitted.  `control_buffer` is the outstanding-ping tracking buffer. -/
structure WebSocketInner where
  control_buffer : Bytes
  closed : Bool
deriving DecidableEq, Repr

/-- `slice::chunks_mut(k)` on `buf`: the consecutive chunks of at most
`k` bytes, in order.  (`chunks_mut` panics when `k = 0`; that panic is
modelled at the call site in `send_fragmented`, and this function returns
`[]` on that never-taken input to stay total.) -/
def chunksOf (l : Bytes) (k : Nat) : List Bytes :=
  if h : l = [] ∨ k = 0 then []
  else l.take k :: chunksOf (l.drop k) k
termination_by l.length
decreasing_by
  push_neg at h
  have h1 : 0 < l.length := List.length_pos.mpr h.1
  simp only [List.length_drop]
  omega

/-- The continuation loop of `WebSocketInner::send_fragmented`
(`while let Some(payload) = chunks.next()`), with the one-step lookahead
(`chunks.peek().is_none()`) selecting the FIN flag. -/
def sendRest (fs : FramedState) (chunks : List Bytes) : FramedState × Option Error :=
  match chunks with
  | [] => (fs, none)
  | c :: rest =>
    match framedWrite fs (OpCode.dataCode DataCode.continuation) rest.isEmpty c with
    | (fs', none) => sendRest fs' rest
    | (fs', some e) => (fs', some e)

/-- `WebSocketInner::send_fragmented` (`ws.rs` lines 106–150).  The
closed check at entry is the plain state check of spec §9 open question 2
(`*self.closed` in the source). -/
def WebSocketInner.send_fragmented (ws : WebSocketInner) (fs : FramedState)
    (buf : Bytes) (message_type : MessageType) (fragment_size : Nat) :
    WebSocketInner × FramedState × Outcome Unit :=
  if ws.closed then (ws, fs, Outcome.error Error.closeError)
  else if fragment_size = 0 then
    (ws, fs, Outcome.panic "chunk size must be non-zero")
  else
    match chunksOf buf fragment_size with
    | [] => (ws, fs, Outcome.ok ())
    | first :: rest =>
      let payload_type :=
        match message_type with
        | MessageType.text => DataCode.text
        | MessageType.binary => DataCode.binary
      match framedWrite fs (OpCode.dataCode payload_type) rest.isEmpty first with
      | (fs', some e) => (ws, fs', Outcome.error e)
      | (fs', none) =>
        match sendRest fs' rest with
        | (fs'', none) => (ws, fs'', Outcome.ok ())
        | (fs'', some e) => (ws, fs'', Outcome.error e)

/-- The `loop` of `WebSocketInner::read` (`ws.rs` lines 164–226),
consuming scripted codec read results one at a time.  The third
component is `none` when the script is exhausted with the read still
blocked on the codec, otherwise `some` of the call's result. -/
def readLoop (ws : WebSocketInner) (fs : FramedState)
    (items : List (Except ReadError Item)) :
    WebSocketInner × FramedState × Option (Except Error Message) :=
  match items with
  | [] => (ws, fs, none)
  | Except.ok Item.binary :: _ => (ws, fs, some (Except.ok Message.binary))
  | Except.ok Item.text :: _ => (ws, fs, some (Except.ok Message.text))
  | Except.ok (Item.ping payload) :: _ =>
    match framedWrite fs (OpCode.controlCode ControlCode.pong) true payload with
    | (fs', none) => (ws, fs', some (Except.ok Message.ping))
    | (fs', some e) => (ws, fs', some (Except.error e))
  | Except.ok (Item.pong payload) :: rest =>
    if ws.control_buffer.isEmpty then readLoop ws fs rest
    else if ws.control_buffer = payload then (ws, fs, some (Except.ok Message.pong))
    else
      match framedWriteClose fs ⟨CloseCode.protocol, some CONTROL_DATA_MISMATCH⟩ with
      | (fs', none) =>
        ({ ws with closed := true }, fs',
          some (Except.error (Error.protocolError CONTROL_DATA_MISMATCH)))
      | (fs', some e) => ({ ws with closed := true }, fs', some (Except.error e))
  | Except.ok (Item.close reason payload) :: _ =>
    match framedWrite fs (OpCode.controlCode ControlCode.close) true payload with
    | (fs', some e) => (ws, fs', some (Except.error e))
    | (fs', none) =>
      ({ ws with closed := true }, fs', some (Except.ok (Message.close reason)))
  | Except.error re :: _ =>
    match re.close_with with
    | some reason =>
      match framedWriteClose fs reason with
      | (fs', none) => ({ ws with closed := true }, fs', some (Except.error re.error))
      | (fs', some e) => ({ ws with closed := true }, fs', some (Except.error e))
    | none => ({ ws with closed := true }, fs, some (Except.error re.error))

/-- `WebSocketInner::read` (`ws.rs` lines 152–227): the closed check,
then the loop. -/
def WebSocketInner.read (ws : WebSocketInner) (fs : FramedState)
    (items : List (Except ReadError Item)) :
    WebSocketInner × FramedState × Option (Except Error Message) :=
  if ws.closed then (ws, fs, some (Except.error Error.closeError))
  else readLoop ws fs items

/-- `&buf[..n]`: the first `n` bytes, or `none` for the
range-end-index-out-of-bounds panic when `n > buf.len()`. -/
def sliceTo (buf : Bytes) (n : Nat) : Option Bytes :=
  if n ≤ buf.length then some (buf.take n) else none

/-- `slice::clone_from_slice`: replaces `dst` with a copy of `src`, or
`none` for the panic raised when the two lengths differ. -/
def clone_from_slice (dst src : Bytes) : Option Bytes :=
  if dst.length = src.length then some src else none

/-- The final frame write of `WebSocketInner::write` (`ws.rs` lines
254–260): one frame with FIN set; a codec failure latches `closed`. -/
def writeFrameStep (ws : WebSocketInner) (fs : FramedState) (op : OpCode) (buf : Bytes) :
    WebSocketInner × FramedState × Outcome Unit :=
  match framedWrite fs op true buf with
  | (fs', none) => (ws, fs', Outcome.ok ())
  | (fs', some e) => ({ ws with closed := true }, fs', Outcome.error e)

/-- `WebSocketInner::write` (`ws.rs` lines 229–261).  The `Ping` branch
reproduces the source's tracking step literally:
`control_buffer.clear()` followed by
`control_buffer.clone_from_slice(&buf[..CONTROL_MAX_SIZE])`, where the
slice indexing and the length-matching copy can panic. -/
def WebSocketInner.write (ws : WebSocketInner) (fs : FramedState)
    (buf : Bytes) (message_type : PayloadType) :
    WebSocketInner × FramedState × Outcome Unit :=
  if ws.closed then (ws, fs, Outcome.error Error.closeError)
  else
    match message_type with
    | PayloadType.text => writeFrameStep ws fs (OpCode.dataCode DataCode.text) buf
    | PayloadType.binary => writeFrameStep ws fs (OpCode.dataCode DataCode.binary) buf
    | PayloadType.ping =>
      if buf.length > CONTROL_MAX_SIZE then
        (ws, fs, Outcome.error (Error.protocolError CONTROL_FRAME_LEN))
      else
        let cleared : Bytes := []
        match sliceTo buf CONTROL_MAX_SIZE with
        | none =>
          ({ ws with control_buffer := cleared }, fs,
            Outcome.panic "range end index out of bounds")
        | some src =>
          match clone_from_slice cleared src with
          | none =>
            ({ ws with control_buffer := cleared }, fs,
              Outcome.panic "clone_from_slice: source and destination have different lengths")
          | some stored =>
            writeFrameStep { ws with control_buffer := stored } fs
              (OpCode.controlCode ControlCode.ping) buf

/-- `DataCode` selected for the first fragment of a `send_fragmented`
(`ws.rs` lines 119–122). -/
def dataCodeOf : MessageType → DataCode
  | MessageType.text => DataCode.text
  | MessageType.binary => DataCode.binary

/-- The payloads of a trace of raw data/control frames, in order; `none`
if the trace contains an encoded close frame (whose payload encoding
lives in the codec). -/
def dataPayloads : List WsWrite → Option (List Bytes)
  | [] => some []
  | WsWrite.frame _ _ p :: rest => (dataPayloads rest).map (fun l => p :: l)
  | WsWrite.closeFrame _ :: _ => none

/-- A throwaway default for `List.getD` over traces. -/
def dummyWrite : WsWrite := WsWrite.closeFrame ⟨CloseCode.normal, none⟩

/-- The frames a run of the continuation loop emits when every codec
write succeeds. -/
def contFrames : List Bytes → List WsWrite
  | [] => []
  | c :: rest =>
    WsWrite.frame (OpCode.dataCode DataCode.continuation) rest.isEmpty c :: contFrames rest

/-- The frames a whole `send_fragmented` emits over the given chunks when
every codec write succeeds. -/
def fragFrames (mt : MessageType) : List Bytes → List WsWrite
  | [] => []
  | first :: rest =>
    WsWrite.frame (OpCode.dataCode (dataCodeOf mt)) rest.isEmpty first :: contFrames rest

theorem chunksOf_nil (k : Nat) : chunksOf [] k = [] := by
  rw [chunksOf]
  simp

theorem chunksOf_cons {l : Bytes} {k : Nat} (hl : l ≠ []) (hk : k ≠ 0) :
    chunksOf l k = l.take k :: chunksOf (l.drop k) k := by
  rw [chunksOf]
  simp [hl, hk]

theorem chunksOf_flatten {k : Nat} (hk : k ≠ 0) (l : Bytes) :
    (chunksOf l k).flatten = l := by
  by_cases hl : l = []
  · subst hl
    simp [chunksOf_nil]
  · rw [chunksOf_cons hl hk, List.flatten_cons, chunksOf_flatten hk (l.drop k),
      List.take_append_drop]
termination_by l.length
decreasing_by
  have h1 : 0 < l.length := List.length_pos.mpr hl
  simp only [List.length_drop]
  omega

theorem chunksOf_length {k : Nat} (hk : k ≠ 0) (l : Bytes) :
    (chunksOf l k).length = (l.length + k - 1) / k := by
  by_cases hl : l = []
  · subst hl
    rw [chunksOf_nil]
    simp only [List.length_nil]
    rw [Nat.div_eq_of_lt (by omega)]
  · rw [chunksOf_cons hl hk]
    simp only [List.length_cons, chunksOf_length hk (l.drop k), List.length_drop]
    have hn : 0 < l.length := List.length_pos.mpr hl
    have hkpos : 0 < k := Nat.pos_of_ne_zero hk
    have e1 : l.length + k - 1 = (l.length - 1) + k := by omega
    have e2 : l.length - k + k - 1 = (l.length - k) + (k - 1) := by omega
    rw [e1, Nat.add_div_right _ hkpos, e2]
    congr 1
    by_cases hlk : k ≤ l.length
    · congr 1
      omega
    · rw [Nat.div_eq_of_lt (by omega), Nat.div_eq_of_lt (by omega)]
termination_by l.length
decreasing_by
  have h1 : 0 < l.length := List.length_pos.mpr hl
  simp only [List.length_drop]
  omega

theorem chunksOf_ne_nil {l : Bytes} {k : Nat} (hl : l ≠ []) (hk : k ≠ 0) :
    chunksOf l k ≠ [] := by
  rw [chunksOf_cons hl hk]
  exact List.cons_ne_nil _ _

theorem sendRest_ok (chunks : List Bytes) :
    ∀ tr : List WsWrite,
      sendRest ⟨[], tr⟩ chunks = (⟨[], tr ++ contFrames chunks⟩, none) := by
  induction chunks with
  | nil => intro tr; simp [sendRest, contFrames]
  | cons c rest ih =>
    intro tr
    rw [sendRest]
    simp only [framedWrite]
    rw [ih (tr ++ [WsWrite.frame (OpCode.dataCode DataCode.continuation) rest.isEmpty c])]
    simp [contFrames]

theorem send_fragmented_ok (cb : Bytes) (tr : List WsWrite) (buf : Bytes)
    (mt : MessageType) (F : Nat) (hF : F ≠ 0) :
    WebSocketInner.send_fragmented ⟨cb, false⟩ ⟨[], tr⟩ buf mt F =
      (⟨cb, false⟩, ⟨[], tr ++ fragFrames mt (chunksOf buf F)⟩, Outcome.ok ()) := by
  simp only [WebSocketInner.send_fragmented, Bool.false_eq_true, if_false, if_neg hF]
  rcases hc : chunksOf buf F with _ | ⟨first, rest⟩
  · simp [fragFrames]
  · have hdc : (match mt with
        | MessageType.text => DataCode.text
        | MessageType.binary => DataCode.binary) = dataCodeOf mt := by
      cases mt <;> rfl
    simp only [framedWrite, hdc]
    rw [sendRest_ok rest
      (tr ++ [WsWrite.frame (OpCode.dataCode (dataCodeOf mt)) rest.isEmpty first])]
    simp [fragFrames]

theorem contFrames_length (chunks : List Bytes) :
    (contFrames chunks).length = chunks.length := by
  induction chunks with
  | nil => rfl
  | cons c rest ih => simp [contFrames, ih]

theorem fragFrames_length (mt : MessageType) (chunks : List Bytes) :
    (fragFrames mt chunks).length = chunks.length := by
  cases chunks with
  | nil => rfl
  | cons c rest => simp [fragFrames, contFrames_length]

theorem contFrames_getD (chunks : List Bytes) :
    ∀ i, i < chunks.length →
      (contFrames chunks).getD i dummyWrite =
        WsWrite.frame (OpCode.dataCode DataCode.continuation)
          (decide (i + 1 = chunks.length)) (chunks.getD i []) := by
  induction chunks with
  | nil => intro i hi; simp at hi
  | cons c rest ih =>
    intro i hi
    cases i with
    | zero =>
      simp only [contFrames, List.getD_cons_zero, List.length_cons]
      congr 1
      rcases rest with _ | ⟨r, rs⟩ <;> simp
    | succ j =>
      simp only [contFrames, List.getD_cons_succ, List.length_cons]
      have hj : j < rest.length := by simpa [Nat.succ_lt_succ_iff] using hi
      rw [ih j hj]
      have hdec : decide (j + 1 = rest.length) = decide (j + 1 + 1 = rest.length + 1) := by
        simp only [decide_eq_decide]
        constructor <;> intro h2 <;> omega
      rw [hdec]

theorem fragFrames_getD (mt : MessageType) (chunks : List Bytes) :
    ∀ i, i < chunks.length →
      (fragFrames mt chunks).getD i dummyWrite =
        WsWrite.frame
          (OpCode.dataCode (if i = 0 then dataCodeOf mt else DataCode.continuation))
          (decide (i + 1 = chunks.length)) (chunks.getD i []) := by
  cases chunks with
  | nil => intro i hi; simp at hi
  | cons c rest =>
    intro i hi
    cases i with
    | zero =>
      simp only [fragFrames, List.getD_cons_zero, List.length_cons, if_pos rfl]
      congr 1
      rcases rest with _ | ⟨r, rs⟩ <;> simp
    | succ j =>
      simp only [fragFrames, List.getD_cons_succ, List.length_cons]
      have hj : j < rest.length := by simpa [Nat.succ_lt_succ_iff] using hi
      rw [contFrames_getD rest j hj]
      have hdec : decide (j + 1 = rest.length) = decide (j + 1 + 1 = rest.length + 1) := by
        simp only [decide_eq_decide]
        constructor <;> intro h2 <;> omega
      simp only [if_neg (Nat.succ_ne_zero j)]
      rw [hdec]

theorem dataPayloads_contFrames (chunks : List Bytes) :
    dataPayloads (contFrames chunks) = some chunks := by
  induction chunks with
  | nil => rfl
  | cons c rest ih => simp [contFrames, dataPayloads, ih]

theorem dataPayloads_fragFrames (mt : MessageType) (chunks : List Bytes) :
    dataPayloads (fragFrames mt chunks) = some chunks := by
  cases chunks with
  | nil => rfl
  | cons c rest => simp [fragFrames, dataPayloads, dataPayloads_contFrames]

/-- C2: for every session state in which the closed flag is true, each of
`read`, `write` and `send_fragmented` fails immediately with the `Closed`
error and performs no transport I/O (the engine state and the codec's
oracle and trace are untouched). -/
theorem c2_closed_rejects_all (ws : WebSocketInner) (h : ws.closed = true)
    (fs : FramedState) (buf : Bytes) (t : PayloadType) (mt : MessageType)
    (F : Nat) (items : List (Except ReadError Item)) :
    WebSocketInner.read ws fs items = (ws, fs, some (Except.error Error.closeError)) ∧
    WebSocketInner.write ws fs buf t = (ws, fs, Outcome.error Error.closeError) ∧
    WebSocketInner.send_fragmented ws fs buf mt F = (ws, fs, Outcome.error Error.closeError) := by
  refine ⟨?_, ?_, ?_⟩ <;>
    simp [WebSocketInner.read, WebSocketInner.write, WebSocketInner.send_fragmented, h]

/-- Witness for C2 at the concrete closed state `⟨[], true⟩`. -/
theorem c2_witness :
    (WebSocketInner.mk [] true).closed = true ∧
    WebSocketInner.read ⟨[], true⟩ ⟨[], []⟩ [] =
      (⟨[], true⟩, ⟨[], []⟩, some (Except.error Error.closeError)) :=
  ⟨rfl, (c2_closed_rejects_all ⟨[], true⟩ rfl ⟨[], []⟩ [] PayloadType.text
      MessageType.text 1 []).1⟩

/-- C5: a `read` on an open session that observes a Pong whose payload
differs from the nonempty outstanding-ping buffer latches `closed`,
transmits exactly one Close frame with code `Protocol` and the fixed
description, and fails with a `Protocol` error (codec writes succeeding). -/
theorem c5_pong_mismatch_closes (cb p : Bytes) (hcb : cb ≠ []) (hne : cb ≠ p)
    (tr : List WsWrite) (rest : List (Except ReadError Item)) :
    WebSocketInner.read ⟨cb, false⟩ ⟨[], tr⟩ (Except.ok (Item.pong p) :: rest) =
      (⟨cb, true⟩,
        ⟨[], tr ++ [WsWrite.closeFrame ⟨CloseCode.protocol, some CONTROL_DATA_MISMATCH⟩]⟩,
        some (Except.error (Error.protocolError CONTROL_DATA_MISMATCH))) := by
  simp [WebSocketInner.read, readLoop, framedWriteClose, hne, hcb]

/-- Witness for C5 at outstanding ping `[1]` and mismatched pong `[2]`. -/
theorem c5_witness :
    ([1] : Bytes) ≠ [] ∧ ([1] : Bytes) ≠ [2] ∧
    WebSocketInner.read ⟨[1], false⟩ ⟨[], []⟩ [Except.ok (Item.pong [2])] =
      (⟨[1], true⟩,
        ⟨[], [WsWrite.closeFrame ⟨CloseCode.protocol, some CONTROL_DATA_MISMATCH⟩]⟩,
        some (Except.error (Error.protocolError CONTROL_DATA_MISMATCH))) :=
  ⟨by decide, by decide, c5_pong_mismatch_closes [1] [2] (by decide) (by decide) [] []⟩

/-- C6: a `read` on an open session that observes a Close item with
reason `R` and payload `P` transmits exactly one Close frame with FIN set
carrying the same payload `P`, latches `closed`, and returns
`Message::Close(R)` (codec writes succeeding). -/
theorem c6_close_echoed (cb : Bytes) (reason : CloseReason) (p : Bytes)
    (tr : List WsWrite) (rest : List (Except ReadError Item)) :
    WebSocketInner.read ⟨cb, false⟩ ⟨[], tr⟩ (Except.ok (Item.close reason p) :: rest) =
      (⟨cb, true⟩,
        ⟨[], tr ++ [WsWrite.frame (OpCode.controlCode ControlCode.close) true p]⟩,
        some (Except.ok (Message.close reason))) := by
  simp [WebSocketInner.read, readLoop, framedWrite]

/-- C7: a `read` on an open session that observes a Ping item with
payload `P` transmits an outbound Pong frame with FIN set and payload
identical to `P` before returning, and, the write succeeding, returns
`Message::Ping` with the rest of the state untouched. -/
theorem c7_ping_answered (cb p : Bytes) (tr : List WsWrite)
    (rest : List (Except ReadError Item)) :
    WebSocketInner.read ⟨cb, false⟩ ⟨[], tr⟩ (Except.ok (Item.ping p) :: rest) =
      (⟨cb, false⟩,
        ⟨[], tr ++ [WsWrite.frame (OpCode.controlCode ControlCode.pong) true p]⟩,
        some (Except.ok Message.ping)) := by
  simp [WebSocketInner.read, readLoop, framedWrite]

/-- C8: a `read` on an open session that observes a Pong while no ping is
outstanding (empty tracking buffer) discards it — no message, no outbound
frame, no state change — and continues with the next decoded item. -/
theorem c8_unsolicited_pong_skipped (p : Bytes) (fs : FramedState)
    (rest : List (Except ReadError Item)) :
    WebSocketInner.read ⟨[], false⟩ fs (Except.ok (Item.pong p) :: rest) =
      WebSocketInner.read ⟨[], false⟩ fs rest := by
  simp [WebSocketInner.read, readLoop]

/-- C9: a `read` on an open session whose codec `read_next` fails latches
`closed`; with no recommended close reason the original error is
returned and nothing is sent; with a recommended reason one close send is
attempted — its success returns the original error, its failure returns
the send's own error instead. -/
theorem c9_read_failure_paths (cb : Bytes) (e e2 : Error) (r : CloseReason)
    (o : List (Option Error)) (tr : List WsWrite)
    (rest : List (Except ReadError Item)) :
    WebSocketInner.read ⟨cb, false⟩ ⟨o, tr⟩ (Except.error ⟨none, e⟩ :: rest) =
      (⟨cb, true⟩, ⟨o, tr⟩, some (Except.error e)) ∧
    WebSocketInner.read ⟨cb, false⟩ ⟨[], tr⟩ (Except.error ⟨some r, e⟩ :: rest) =
      (⟨cb, true⟩, ⟨[], tr ++ [WsWrite.closeFrame r]⟩, some (Except.error e)) ∧
    WebSocketInner.read ⟨cb, false⟩ ⟨some e2 :: o, tr⟩ (Except.error ⟨some r, e⟩ :: rest) =
      (⟨cb, true⟩, ⟨o, tr⟩, some (Except.error e2)) := by
  refine ⟨?_, ?_, ?_⟩ <;> simp [WebSocketInner.read, readLoop, framedWriteClose]

/-- C3: on an open session with every codec write succeeding and
`F > 0`, `send_fragmented` over a buffer of length `N` succeeds and emits
exactly `⌈N / F⌉` frames in order (none when `N = 0`); the first frame's
opcode matches the requested message type and every later frame is a
Continuation; FIN is set on exactly the last frame; and the frame
payloads concatenated in order reproduce the buffer. -/
theorem c3_send_fragmented_frames (buf : Bytes) (mt : MessageType) (F : Nat)
    (hF : 0 < F) (cb : Bytes) :
    (WebSocketInner.send_fragmented ⟨cb, false⟩ ⟨[], []⟩ buf mt F).2.2 = Outcome.ok () ∧
    (WebSocketInner.send_fragmented ⟨cb, false⟩ ⟨[], []⟩ buf mt F).2.1.trace.length
      = (buf.length + F - 1) / F ∧
    (buf = [] →
      (WebSocketInner.send_fragmented ⟨cb, false⟩ ⟨[], []⟩ buf mt F).2.1.trace = []) ∧
    (∀ i,
      i < (WebSocketInner.send_fragmented ⟨cb, false⟩ ⟨[], []⟩ buf mt F).2.1.trace.length →
      (WebSocketInner.send_fragmented ⟨cb, false⟩ ⟨[], []⟩ buf mt F).2.1.trace.getD i
          dummyWrite
        = WsWrite.frame
            (OpCode.dataCode (if i = 0 then dataCodeOf mt else DataCode.continuation))
            (decide (i + 1 =
              (WebSocketInner.send_fragmented ⟨cb, false⟩ ⟨[], []⟩ buf mt
                  F).2.1.trace.length))
            ((chunksOf buf F).getD i [])) ∧
    dataPayloads (WebSocketInner.send_fragmented ⟨cb, false⟩ ⟨[], []⟩ buf mt F).2.1.trace
      = some (chunksOf buf F) ∧
    (chunksOf buf F).flatten = buf := by
  have hF' : F ≠ 0 := by omega
  have key := send_fragmented_ok cb [] buf mt F hF'
  rw [key]
  refine ⟨rfl, ?_, ?_, ?_, ?_, ?_⟩
  · simp only [List.nil_append, fragFrames_length]
    exact chunksOf_length hF' buf
  · intro hbuf
    subst hbuf
    simp [chunksOf_nil, fragFrames]
  · intro i hi
    have hi' : i < (chunksOf buf F).length := by
      simpa [fragFrames_length] using hi
    have hg := fragFrames_getD mt (chunksOf buf F) i hi'
    simpa [fragFrames_length] using hg
  · simpa using dataPayloads_fragFrames mt (chunksOf buf F)
  · exact chunksOf_flatten hF' buf

/-- Witness for C3: fragmenting a 10-byte buffer with `F = 4` succeeds. -/
theorem c3_witness :
    0 < 4 ∧
    (WebSocketInner.send_fragmented ⟨[], false⟩ ⟨[], []⟩
        [0, 1, 2, 3, 4, 5, 6, 7, 8, 9] MessageType.binary 4).2.2 = Outcome.ok () :=
  ⟨by decide,
    (c3_send_fragmented_frames [0, 1, 2, 3, 4, 5, 6, 7, 8, 9]
        MessageType.binary 4 (by decide) []).1⟩

/-- C1 fails on the code: a transport failure injected into the first
fragment write of `send_fragmented` on an open session is returned to the
caller with the `closed` flag still `false` — the failure does not latch
the engine closed before the call returns. -/
theorem c1_counterexample :
    WebSocketInner.send_fragmented ⟨[], false⟩ ⟨[some (Error.transport 0)], []⟩
        [0] MessageType.binary 1 =
      (⟨[], false⟩, ⟨[], []⟩, Outcome.error (Error.transport 0)) := by
  have hch : chunksOf [0] 1 = [[0]] := by
    rw [chunksOf_cons (by decide) (by decide)]
    simp [chunksOf_nil]
  simp [WebSocketInner.send_fragmented, framedWrite, hch]

/-- C1 (amended): a codec failure of the final frame write in `write`
latches `closed` before the call returns, as does any codec `read_next`
failure and any Pong-payload mismatch during `read` (even when the
follow-up close send fails); but a failing fragment write in
`send_fragmented`, a failing Ping-echo or Close-echo write in `read`, and
the oversized-ping `Protocol` error in `write` all return their error
with `closed` still false. -/
theorem c1_latching_amended (cb buf big p : Bytes) (e err : Error)
    (o : List (Option Error)) (tr : List WsWrite) (r : CloseReason)
    (mt : MessageType) (F : Nat) (hF : F ≠ 0) (hbuf : buf ≠ [])
    (hbig : CONTROL_MAX_SIZE < big.length)
    (rest : List (Except ReadError Item)) :
    (WebSocketInner.write ⟨cb, false⟩ ⟨some e :: o, tr⟩ buf
        PayloadType.text).1.closed = true ∧
    (WebSocketInner.write ⟨cb, false⟩ ⟨some e :: o, tr⟩ buf
        PayloadType.binary).1.closed = true ∧
    (WebSocketInner.read ⟨cb, false⟩ ⟨o, tr⟩
        (Except.error ⟨none, err⟩ :: rest)).1.closed = true ∧
    (WebSocketInner.read ⟨cb, false⟩ ⟨o, tr⟩
        (Except.error ⟨some r, err⟩ :: rest)).1.closed = true ∧
    (cb ≠ [] → cb ≠ p →
      (WebSocketInner.read ⟨cb, false⟩ ⟨o, tr⟩
          (Except.ok (Item.pong p) :: rest)).1.closed = true) ∧
    WebSocketInner.send_fragmented ⟨cb, false⟩ ⟨some e :: o, tr⟩ buf mt F =
      (⟨cb, false⟩, ⟨o, tr⟩, Outcome.error e) ∧
    WebSocketInner.read ⟨cb, false⟩ ⟨some e :: o, tr⟩
        (Except.ok (Item.ping p) :: rest) =
      (⟨cb, false⟩, ⟨o, tr⟩, some (Except.error e)) ∧
    WebSocketInner.read ⟨cb, false⟩ ⟨some e :: o, tr⟩
        (Except.ok (Item.close r p) :: rest) =
      (⟨cb, false⟩, ⟨o, tr⟩, some (Except.error e)) ∧
    WebSocketInner.write ⟨cb, false⟩ ⟨o, tr⟩ big PayloadType.ping =
      (⟨cb, false⟩, ⟨o, tr⟩, Outcome.error (Error.protocolError CONTROL_FRAME_LEN)) := by
  refine ⟨?_, ?_, ?_, ?_, ?_, ?_, ?_, ?_, ?_⟩
  · simp [WebSocketInner.write, writeFrameStep, framedWrite]
  · simp [WebSocketInner.write, writeFrameStep, framedWrite]
  · simp [WebSocketInner.read, readLoop]
  · rcases o with _ | ⟨(_ | e'), o'⟩ <;>
      simp [WebSocketInner.read, readLoop, framedWriteClose]
  · intro hcb hne
    rcases o with _ | ⟨(_ | e'), o'⟩ <;>
      simp [WebSocketInner.read, readLoop, framedWriteClose, hcb, hne]
  · simp only [WebSocketInner.send_fragmented, Bool.false_eq_true, if_false,
      if_neg hF, chunksOf_cons hbuf hF, framedWrite]
  · simp [WebSocketInner.read, readLoop, framedWrite]
  · simp [WebSocketInner.read, readLoop, framedWrite]
  · simp [WebSocketInner.write, hbig]

/-- Witness for C1 (amended) at concrete inputs: a one-byte buffer, a
126-byte ping payload and an injected transport failure. -/
theorem c1_witness :
    (1 : Nat) ≠ 0 ∧ ([0] : Bytes) ≠ [] ∧
    CONTROL_MAX_SIZE < (List.replicate 126 0 : Bytes).length ∧
    (WebSocketInner.write ⟨[], false⟩ ⟨[some (Error.transport 7)], []⟩ [0]
        PayloadType.text).1.closed = true :=
  ⟨by decide, by decide, by simp [CONTROL_MAX_SIZE],
    (c1_latching_amended [] [0] (List.replicate 126 0) [] (Error.transport 7)
        (Error.transport 8) [] [] ⟨CloseCode.normal, none⟩ MessageType.text 1
        (by decide) (by decide) (by simp [CONTROL_MAX_SIZE]) []).1⟩

/-- C4 fails on the code (code bug): `write(Ping, "abc")` on an open
session panics in the ping-tracking step — `&buf[..125]` indexes past the
end of the 3-byte payload — instead of storing the exact 3-byte payload
and transmitting one Ping frame as the (corrected, spec §9 open
question 1) contract requires; no frame is written. -/
theorem c4_ping_write_panics :
    WebSocketInner.write ⟨[], false⟩ ⟨[], []⟩ [97, 98, 99] PayloadType.ping =
      (⟨[], false⟩, ⟨[], []⟩, Outcome.panic "range end index out of bounds") := by
  simp [WebSocketInner.write, sliceTo, CONTROL_MAX_SIZE]

/-- C10: the outstanding-ping storage step of `write` first clears the
tracking buffer and then copies the fixed span `buf[..125]`; for every
payload shorter than 125 bytes the slice indexes out of bounds and the
operation panics, and for a payload of exactly 125 bytes the copy into
the just-cleared length-0 buffer panics on the length mismatch — in both
cases the frame write is never reached (the codec state is untouched). -/
theorem c10_ping_store_panics (cb : Bytes) (fs : FramedState) (buf : Bytes) :
    (buf.length < CONTROL_MAX_SIZE →
      WebSocketInner.write ⟨cb, false⟩ fs buf PayloadType.ping =
        (⟨[], false⟩, fs, Outcome.panic "range end index out of bounds")) ∧
    (buf.length = CONTROL_MAX_SIZE →
      WebSocketInner.write ⟨cb, false⟩ fs buf PayloadType.ping =
        (⟨[], false⟩, fs,
          Outcome.panic
            "clone_from_slice: source and destination have different lengths")) := by
  constructor
  · intro h
    simp only [CONTROL_MAX_SIZE] at h
    have h1 : ¬ buf.length > 125 := by omega
    have h2 : ¬ (125 : Nat) ≤ buf.length := by omega
    simp [WebSocketInner.write, sliceTo, CONTROL_MAX_SIZE, h1, h2]
  · intro h
    simp only [CONTROL_MAX_SIZE] at h
    have h1 : ¬ buf.length > 125 := by omega
    have h2 : (125 : Nat) ≤ buf.length := by omega
    simp [WebSocketInner.write, sliceTo, clone_from_slice, CONTROL_MAX_SIZE,
      List.length_take, h1, h2, h]

/-- Witness for C10 at the 3-byte payload `"abc"` and a nonempty
outstanding-ping buffer. -/
theorem c10_witness :
    ([97, 98, 99] : Bytes).length < CONTROL_MAX_SIZE ∧
    WebSocketInner.write ⟨[5], false⟩ ⟨[], []⟩ [97, 98, 99] PayloadType.ping =
      (⟨[], false⟩, ⟨[], []⟩, Outcome.panic "range end index out of bounds") :=
  ⟨by decide,
    (c10_ping_store_panics [5] ⟨[], []⟩ [97, 98, 99]).1 (by decide)⟩

end Ratchet
